import Mathlib

/-!
# helpers/compose.go

A shallow embedding of the compose helper package: the functions `GetVersion`,
`Up`, `Rm`, `Stop`, `Ps`, `fqdn`, `viewFromContainerList`, `Pull` and
`GetLogs`.

Go strings are Lean strings.  A Go `error` is `Option GoError` (`none` is the
nil error).  The compose client is a record of handlers acting on a state `W`
of the container engine, so that a helper is a function from the state before
the call to its result and the state after it.
-/

namespace Helpers

/-! ## Values of the libraries the helpers are written against -/

/-- A `context.Context`; the helpers only pass it on. -/
structure Context where
  id : Nat
deriving DecidableEq, Repr

/-- Error values.  `base` is an error without a cause (for instance what a
backend reports); `withMessage` and `withStack` are the two layers that
`errors.Wrap` of `github.com/pkg/errors` puts around an error (the recorded
stack itself is not modelled). -/
inductive GoError where
  | base (msg : String)
  | withMessage (cause : GoError) (msg : String)
  | withStack (err : GoError)
deriving DecidableEq, Repr

/-- The method `Error()`: a message layer prints `msg: cause`, a stack layer
prints what it carries. -/
def GoError.Error : GoError → String
  | .base msg => msg
  | .withMessage cause msg => msg ++ ": " ++ cause.Error
  | .withStack err => err.Error

/-- The method `Cause()` of the two wrapping layers; an error without that
method gives `none`. -/
def GoError.causeStep : GoError → Option GoError
  | .base _ => none
  | .withMessage cause _ => some cause
  | .withStack err => some err

/-- The function `errors.Cause`: follow `Cause()` down to the first error that
has no such method. -/
def GoError.Cause : GoError → GoError
  | .base msg => .base msg
  | .withMessage cause _ => cause.Cause
  | .withStack err => err.Cause

/-- Whether an error is one of the wrapping layers of `errors.Wrap`. -/
def GoError.isWrapped : GoError → Bool
  | .base _ => false
  | .withMessage _ _ => true
  | .withStack _ => true

/-- The function `errors.Wrap(err, message)`: nil for a nil error, otherwise a
stack layer around a message layer around `err`. -/
def Wrap (err : Option GoError) (message : String) : Option GoError :=
  match err with
  | none => none
  | some e => some (.withStack (.withMessage e message))

/-- Split a path at every `/`; the result is never empty. -/
def splitSlash : List Char → List (List Char)
  | [] => [[]]
  | ch :: rest =>
    match splitSlash rest with
    | [] => if ch = '/' then [[], []] else [[ch]]
    | cur :: more => if ch = '/' then [] :: cur :: more else (ch :: cur) :: more

/-- One step of `filepath.Clean` on the elements kept so far (last one first):
empty and `.` elements are dropped, `..` removes the element before it when
there is one that is not itself `..`, is kept in front of a relative path and
dropped at the root. -/
def cleanStep (rooted : Bool) (kept : List (List Char)) (el : List Char) : List (List Char) :=
  if el = [] then kept
  else if el = ['.'] then kept
  else if el = ['.', '.'] then
    match kept with
    | [] => if rooted then [] else [el]
    | top :: below => if top = ['.', '.'] then el :: top :: below else below
  else el :: kept

/-- The function `filepath.Clean` for `/`-separated paths. -/
def filepathClean (path : List Char) : List Char :=
  if path = [] then ['.']
  else
    let rooted := path.head? = some '/'
    let kept := ((splitSlash path).foldl (cleanStep rooted) []).reverse
    let body := List.intercalate ['/'] kept
    if rooted then '/' :: body
    else if body = [] then ['.'] else body

/-- The function `filepath.Dir` for `/`-separated paths: everything up to and
including the last `/`, cleaned. -/
def filepathDir (path : String) : String :=
  String.mk (filepathClean ((path.data.reverse.dropWhile (fun ch => ch ≠ '/')).reverse))

/-- An `io.Writer` the helpers hand out: standard output, the write end of a
pipe made by `io.Pipe()`, or a console. -/
inductive Writer where
  | stdout
  | pipeWriter
  | console (width : Nat)
deriving DecidableEq, Repr

/-- An `api.LogConsumer` as `format.NewLogConsumer` builds it, recorded by the
arguments it was built from. -/
structure LogConsumer where
  ctx : Context
  w : Writer
  color : Bool
  prefixed : Bool
deriving DecidableEq, Repr

/-- The function `format.NewLogConsumer(ctx, w, color, prefix)`. -/
def NewLogConsumer (ctx : Context) (w : Writer) (color prefixed : Bool) : LogConsumer :=
  ⟨ctx, w, color, prefixed⟩

/-- The struct `types.Project`; every field has Go's zero value unless set. -/
structure Project where
  Name : String := ""
  WorkingDir : String := ""
  Services : List String := []
  Networks : List String := []
  Volumes : List String := []
  Secrets : List String := []
  Configs : List String := []
  ComposeFiles : List String := []
  Environment : List (String × String) := []
deriving DecidableEq, Repr

/-- The struct `api.CreateOptions`. -/
structure CreateOptions where
  Services : List String := []
  RemoveOrphans : Bool := false
  Recreate : String := ""
  Inherit : Bool := false
deriving DecidableEq, Repr

/-- The struct `api.StartOptions`; `Attach` is an interface value, nil when not
set. -/
structure StartOptions where
  Attach : Option LogConsumer := none
  AttachTo : List String := []
  CascadeStop : Bool := false
  ExitCodeFrom : String := ""
deriving DecidableEq, Repr

/-- The struct `api.UpOptions`. -/
structure UpOptions where
  Create : CreateOptions := {}
  Start : StartOptions := {}
deriving DecidableEq, Repr

/-- The struct `api.RemoveOptions`. -/
structure RemoveOptions where
  DryRun : Bool := false
  Force : Bool := false
  Volumes : Bool := false
  Services : List String := []
deriving DecidableEq, Repr

/-- The struct `api.StopOptions`; `Timeout` is a pointer, nil when not set. -/
structure StopOptions where
  Timeout : Option Nat := none
  Services : List String := []
deriving DecidableEq, Repr

/-- The struct `api.PullOptions`. -/
structure PullOptions where
  Quiet : Bool := false
  IgnoreFailures : Bool := false
deriving DecidableEq, Repr

/-- The struct `containers.Port`. -/
structure Port where
  HostPort : Nat := 0
  ContainerPort : Nat := 0
  Protocol : String := ""
  HostIP : String := ""
deriving DecidableEq, Repr

/-- The struct `containers.RuntimeConfig`. -/
structure RuntimeConfig where
  Labels : List String := []
  FQDN : String := ""
deriving DecidableEq, Repr

/-- The struct `containers.Container`; `Config` is a pointer, nil when not
set. -/
structure Container where
  ID : String := ""
  Status : String := ""
  Image : String := ""
  Command : String := ""
  Config : Option RuntimeConfig := none
  Ports : List Port := []
  Platform : String := ""
deriving DecidableEq, Repr

/-- The struct `containers.LogsRequest`; `Writer` is an interface value. -/
structure LogsRequest where
  Follow : Bool := false
  Tail : String := ""
  Width : Nat := 0
  Writer : Option Writer := none
deriving DecidableEq, Repr

/-- What `console.ConsoleFromFile(os.Stdout)` gives when standard output is a
terminal: a console whose `Size()` returns a width and an error. -/
structure Console where
  Width : Nat
  SizeErr : Option GoError
deriving DecidableEq, Repr

/-- The compose service of a client (`api.Service`), acting on engine state
`W`. -/
structure ComposeService (W : Type) where
  Up : Context → Project → UpOptions → W → Option GoError × W
  Remove : Context → Project → RemoveOptions → W → Option GoError × W
  Stop : Context → Project → StopOptions → W → Option GoError × W
  Pull : Context → Project → PullOptions → W → Option GoError × W

/-- The container service of a client (`containers.Service`). -/
structure ContainerService (W : Type) where
  Logs : Context → String → LogsRequest → W → Option GoError × W
  List : Context → Bool → W → (List Container × Option GoError) × W

/-- A `client.Client`. -/
structure Client (W : Type) where
  ComposeService : ComposeService W
  ContainerService : ContainerService W

/-! ## The helpers -/

/-- `GetVersion`: `execSilent` is the outcome of `mobycli.ExecSilent(ctx)`, a
byte slice (nil or not) and an error. -/
def GetVersion {W : Type} (execSilent : Context → Option (List Char) × Option GoError)
    (ctx : Context) (_c : Client W) : String × Option GoError :=
  let (versionResult, err) := execSilent ctx
  match versionResult with
  | none => ("", err)
  | some bytes => (String.mk bytes, err)

/-- `Up`. -/
def Up {W : Type} (c : Client W) (ctx : Context) (projectName composeFilePath : String)
    (detach : Bool) (w : W) : Option GoError × W :=
  let projectName := if projectName = "" then "meshery" else projectName
  let project : Project :=
    { Name := projectName, WorkingDir := filepathDir composeFilePath,
      ComposeFiles := [composeFilePath] }
  let logConsumer : Option LogConsumer :=
    if detach then some (NewLogConsumer ctx Writer.pipeWriter false false) else none
  c.ComposeService.Up ctx project { Start := { Attach := logConsumer } } w

/-- `Rm`. -/
def Rm {W : Type} (c : Client W) (ctx : Context) (projectName composeFilePath : String)
    (force : Bool) (w : W) : Option GoError × W :=
  let projectName := if projectName = "" then "meshery" else projectName
  let project : Project :=
    { Name := projectName, WorkingDir := filepathDir composeFilePath,
      ComposeFiles := [composeFilePath] }
  c.ComposeService.Remove ctx project { Force := force } w

/-- `Stop`. -/
def Stop {W : Type} (c : Client W) (ctx : Context) (projectName composeFilePath : String)
    (_force : Bool) (w : W) : Option GoError × W :=
  let projectName := if projectName = "" then "meshery" else projectName
  let project : Project :=
    { Name := projectName, WorkingDir := filepathDir composeFilePath,
      ComposeFiles := [composeFilePath] }
  c.ComposeService.Stop ctx project {} w

/-- The struct `containerView`. -/
structure containerView where
  ID : String := ""
  Image : String := ""
  Status : String := ""
  Command : String := ""
  Ports : List String := []
deriving DecidableEq, Repr

/-- `fqdn`. -/
def fqdn (container : Container) : String :=
  match container.Config with
  | some config => config.FQDN
  | none => ""

/-- `viewFromContainerList`: a slice of zero views of the list's length, whose
entry `i` is then assigned from container `i`.  `PortsToStrings` is
`formatter.PortsToStrings`. -/
def viewFromContainerList (PortsToStrings : List Port → String → List String)
    (containerList : List Container) : List containerView :=
  let retList : List containerView := List.replicate containerList.length {}
  containerList.enum.foldl
    (fun ret ic =>
      ret.set ic.1
        { ID := ic.2.ID, Image := ic.2.Image, Status := ic.2.Status, Command := ic.2.Command,
          Ports := PortsToStrings ic.2.Ports (fqdn ic.2) })
    retList

/-- One table row of `Ps`, the `Fprintf` of its writer function. -/
def psRow (v : containerView) : String :=
  v.ID ++ "\t" ++ v.Image ++ "\t" ++ v.Command ++ "\t" ++ v.Status ++ "\t" ++
    String.intercalate ", " v.Ports ++ "\n"

/-- `Ps`, on the engine state and the text standard output holds.  `Print` is
`format.Print` applied to the view, the format, the text the writer function
writes and the headers; it gives an error and the text it puts on standard
output. -/
def Ps {W : Type} (PortsToStrings : List Port → String → List String)
    (Print : List containerView → String → String → List String → Option GoError × String)
    (c : Client W) (ctx : Context) (all quiet : Bool) (formatOpt : String)
    (w : W) (stdout : String) : Option GoError × W × String :=
  let res := c.ContainerService.List ctx all w
  let containerList := res.1.1
  let err := res.1.2
  match err with
  | some e => (Wrap (some e) "fetch containers", res.2, stdout)
  | none =>
    if quiet then
      (none, res.2, containerList.foldl (fun out ct => out ++ ct.ID ++ "\n") stdout)
    else
      let view := viewFromContainerList PortsToStrings containerList
      let printed := Print view formatOpt (String.join (view.map psRow))
        ["CONTAINER ID", "IMAGE", "COMMAND", "STATUS", "PORTS"]
      (printed.1, res.2, stdout ++ printed.2)

/-- `Pull`. -/
def Pull {W : Type} (c : Client W) (ctx : Context) (composeFilePath projectName : String)
    (w : W) : Option GoError × W :=
  let projectName := if projectName = "" then "meshery" else projectName
  let project : Project :=
    { Name := projectName, WorkingDir := filepathDir composeFilePath,
      ComposeFiles := [composeFilePath] }
  c.ComposeService.Pull ctx project {} w

/-- `GetLogs`: `consoleFromFile` is the outcome of
`console.ConsoleFromFile(os.Stdout)`, a console or an error. -/
def GetLogs {W : Type} (consoleFromFile : Except GoError Console) (c : Client W)
    (ctx : Context) (composeFilePath tail : String) (follow : Bool) (w : W) :
    Option GoError × W :=
  let req : LogsRequest := { Follow := follow, Tail := tail }
  match consoleFromFile with
  | .ok cff =>
    match cff.SizeErr with
    | some err => (some err, w)
    | none =>
      c.ContainerService.Logs ctx composeFilePath
        { req with Width := cff.Width, Writer := some (Writer.console cff.Width) } w
  | .error _ =>
    c.ContainerService.Logs ctx composeFilePath { req with Writer := some Writer.stdout } w

/-! ## Clients used to observe the helpers -/

/-- A request as a client receives it. -/
inductive Call where
  | up (ctx : Context) (project : Project) (options : UpOptions)
  | remove (ctx : Context) (project : Project) (options : RemoveOptions)
  | stop (ctx : Context) (project : Project) (options : StopOptions)
  | pull (ctx : Context) (project : Project) (options : PullOptions)
  | logs (ctx : Context) (name : String) (req : LogsRequest)
  | list (ctx : Context) (all : Bool)
deriving DecidableEq, Repr

/-- A client whose state is the list of requests it has received, oldest
first.  It answers every request with the error `reply`, and a listing with
`containers` as well. -/
def recording (reply : Option GoError) (containers : List Container) : Client (List Call) where
  ComposeService :=
    { Up := fun ctx p o log => (reply, log ++ [Call.up ctx p o])
      Remove := fun ctx p o log => (reply, log ++ [Call.remove ctx p o])
      Stop := fun ctx p o log => (reply, log ++ [Call.stop ctx p o])
      Pull := fun ctx p o log => (reply, log ++ [Call.pull ctx p o]) }
  ContainerService :=
    { Logs := fun ctx name req log => (reply, log ++ [Call.logs ctx name req])
      List := fun ctx all log => ((containers, reply), log ++ [Call.list ctx all]) }

/-- Modelled from the spec: the lifecycle state of a container handle (the
container engine behind the compose service is not under src/). -/
inductive Lifecycle where
  | Created
  | Running
  | Stopped
  | Removed
  | Failed
deriving DecidableEq, Repr

/-- Modelled from the spec: a container handle of the engine, which is not
under src/: its runtime identity, the project and the service that own it, and
its current lifecycle state. -/
structure ContainerHandle where
  ID : String
  project : String
  service : String
  state : Lifecycle
deriving DecidableEq, Repr

/-- Modelled from the spec: the engine's start of one container, which is not
under src/: a container that is created or stopped runs afterwards, any other
one is left as it is. -/
def startContainer (h : ContainerHandle) : ContainerHandle :=
  match h.state with
  | .Created => { h with state := .Running }
  | .Stopped => { h with state := .Running }
  | _ => h

/-- Modelled from the spec: the engine's stop of one container, which is not
under src/: a running container is stopped (by the stop signal, or
force-terminated when the grace timeout is over); stopping a container that is
not running is a no-op, not an error. -/
def stopContainer (h : ContainerHandle) : ContainerHandle :=
  match h.state with
  | .Running => { h with state := .Stopped }
  | _ => h

/-- Modelled from the spec: the status text a listing shows for a lifecycle
state (the engine is not under src/). -/
def Lifecycle.status : Lifecycle → String
  | .Created => "Created"
  | .Running => "Running"
  | .Stopped => "Stopped"
  | .Removed => "Removed"
  | .Failed => "Failed"

/-- Modelled from the spec: the container engine behind a client, which is not
under src/, acting on the container handles it holds; a container belongs to
the project whose name it carries.  `Up` starts the containers of the project
and `Stop` stops them.  `Remove` needs them stopped unless it is forced, and
then takes them away; with a running container and no force it fails and
removes nothing.  `Pull` and `Logs` touch no container, and a listing shows the
running containers, or every container when all are asked for. -/
def engine : Client (List ContainerHandle) where
  ComposeService :=
    { Up := fun _ p _ hs =>
        (none, hs.map (fun h => if h.project = p.Name then startContainer h else h))
      Remove := fun _ p o hs =>
        if o.Force = false ∧ hs.any (fun h => h.project = p.Name ∧ h.state = .Running) then
          (some (GoError.base "container is running"), hs)
        else (none, hs.filter (fun h => h.project ≠ p.Name))
      Stop := fun _ p _ hs =>
        (none, hs.map (fun h => if h.project = p.Name then stopContainer h else h))
      Pull := fun _ _ _ hs => (none, hs) }
  ContainerService :=
    { Logs := fun _ _ _ hs => (none, hs)
      List := fun _ all hs =>
        (((hs.filter (fun h => all = true ∨ h.state = .Running)).map
            (fun h => Container.mk h.ID h.state.status "" "" none [] ""), none), hs) }

/-- Three container handles to run the helpers on: a running and a stopped
container of project `meshery` and a running container of project `web`. -/
def sampleHandles : List ContainerHandle :=
  [ContainerHandle.mk "c1" "meshery" "server" Lifecycle.Running,
    ContainerHandle.mk "c2" "meshery" "adapter" Lifecycle.Stopped,
    ContainerHandle.mk "c3" "web" "nginx" Lifecycle.Running]

/-- Modelled from the spec: the outcome of the version query
`mobycli.ExecSilent`, which is not under src/.  It is an explicit
result-or-error value: either the query gave no result, which is itself an
error, or it gave the bytes it read (there may be none of them) together with
the error of the command, if it has one. -/
inductive VersionQuery where
  | failed (err : GoError)
  | output (bytes : List Char) (err : Option GoError)
deriving DecidableEq, Repr

/-- The pair `mobycli.ExecSilent` returns for an outcome: nil bytes exactly when
there is no result. -/
def VersionQuery.result : VersionQuery → Option (List Char) × Option GoError
  | .failed err => (none, some err)
  | .output bytes err => (some bytes, err)

/-- Two containers to run the helpers on. -/
def sampleContainers : List Container :=
  [Container.mk "c1" "Up" "nginx" "run" (some (RuntimeConfig.mk [] "web.local"))
      [Port.mk 8080 80 "tcp" ""] "",
    Container.mk "c2" "Exited" "redis" "serve" none [Port.mk 0 6379 "tcp" ""] ""]

/-- A port formatter to run the helpers on: one text per port, the host and
the protocol. -/
def samplePortsToStrings (ports : List Port) (host : String) : List String :=
  ports.map (fun p => host ++ "/" ++ p.Protocol)

/-- A printer to run the helpers on: it prints nothing and reports no error. -/
def samplePrint (_view : List containerView) (_formatOpt _rows : String)
    (_headers : List String) : Option GoError × String :=
  (none, "")

/-! ## Auxiliary facts -/

/-- Assigning entry `n + k` from the `k`-th element of `l`, for every `k`, rewrites
the block of `acc` that starts at `n` into the image of `l`. -/
theorem foldl_set_enumFrom {α β : Type} (f : α → β) :
    ∀ (l : List α) (n : Nat) (acc : List β), n + l.length ≤ acc.length →
      (l.enumFrom n).foldl (fun ret ic => ret.set ic.1 (f ic.2)) acc
        = acc.take n ++ l.map f ++ acc.drop (n + l.length)
  | [], n, acc, _ => by simp
  | a :: l, n, acc, h => by
    have hlen : n < acc.length := by simp at h; omega
    have h2 : n + 1 + l.length ≤ (acc.set n (f a)).length := by simp at h ⊢; omega
    rw [List.enumFrom_cons, List.foldl_cons, foldl_set_enumFrom f l (n + 1) _ h2]
    have e1 : (acc.set n (f a)).take (n + 1) = acc.take n ++ [f a] := by
      have e0 : (acc.set n (f a)).take n = acc.take n := by
        apply List.ext_getElem?
        intro i
        rw [List.getElem?_take, List.getElem?_take]
        split
        · rw [List.getElem?_set_ne (by omega)]
        · rfl
      rw [List.take_succ, e0]
      simp [hlen]
    have e2 : (acc.set n (f a)).drop (n + 1 + l.length) = acc.drop (n + (a :: l).length) := by
      rw [List.drop_set_of_lt _ _ (by omega)]
      congr 1
      simp; omega
    rw [e1, e2]
    simp

/-- The loop of `viewFromContainerList` computes a map over the list. -/
theorem viewFromContainerList_eq_map (pts : List Port → String → List String)
    (l : List Container) :
    viewFromContainerList pts l
      = l.map (fun c => containerView.mk c.ID c.Image c.Status c.Command (pts c.Ports (fqdn c))) := by
  unfold viewFromContainerList
  have := foldl_set_enumFrom
    (fun c : Container => containerView.mk c.ID c.Image c.Status c.Command (pts c.Ports (fqdn c)))
    l 0 (List.replicate l.length {}) (by simp)
  simpa [List.enum] using this

/-- Appending the texts of a list one after the other appends their join. -/
theorem foldl_append_join (s : String) (l : List String) :
    l.foldl (fun r t => r ++ t) s = s ++ String.join l := by
  induction l generalizing s with
  | nil => simp [String.join]
  | cons a l ih =>
    have h := ih (s ++ a)
    have h2 := ih ("" ++ a)
    simp only [List.foldl_cons, String.join] at h h2 ⊢
    rw [h, h2]
    simp [String.append_assoc]

/-- The printing loop of `Ps` in quiet mode appends one line per container. -/
theorem foldl_println (l : List Container) (s : String) :
    l.foldl (fun out ct => out ++ ct.ID ++ "\n") s
      = s ++ String.join (l.map (fun ct => ct.ID ++ "\n")) := by
  induction l generalizing s with
  | nil => simp [String.join]
  | cons a l ih =>
    rw [List.foldl_cons, ih, List.map_cons]
    have := foldl_append_join (a.ID ++ "\n") (l.map (fun ct => ct.ID ++ "\n"))
    simp only [String.join, List.foldl_cons] at this ⊢
    rw [show ("" : String) ++ (a.ID ++ "\n") = a.ID ++ "\n" by simp, this]
    simp [String.append_assoc]

/-- Stopping a container does not change the project it belongs to. -/
theorem stopContainer_project (h : ContainerHandle) : (stopContainer h).project = h.project := by
  unfold stopContainer
  cases h.state <;> rfl

/-- Stopping a container that has just been stopped changes nothing. -/
theorem stopContainer_stopContainer (h : ContainerHandle) :
    stopContainer (stopContainer h) = stopContainer h := by
  obtain ⟨id, project, service, state⟩ := h
  cases state <;> rfl

/-! ## The project and the options every helper hands over -/

/-- C1: for each of Up, Rm, Stop and Pull there is one project that the helper
hands to the compose service of every client, and its Name is "meshery" when
projectName is empty and projectName itself otherwise. -/
theorem project_name_defaults (ctx : Context) (projectName composeFilePath : String)
    (flag : Bool) :
    (∃ p o, p.Name = (if projectName = "" then "meshery" else projectName) ∧
      ∀ (W : Type) (c : Client W) (w : W),
        Up c ctx projectName composeFilePath flag w = c.ComposeService.Up ctx p o w) ∧
    (∃ p o, p.Name = (if projectName = "" then "meshery" else projectName) ∧
      ∀ (W : Type) (c : Client W) (w : W),
        Rm c ctx projectName composeFilePath flag w = c.ComposeService.Remove ctx p o w) ∧
    (∃ p o, p.Name = (if projectName = "" then "meshery" else projectName) ∧
      ∀ (W : Type) (c : Client W) (w : W),
        Stop c ctx projectName composeFilePath flag w = c.ComposeService.Stop ctx p o w) ∧
    (∃ p o, p.Name = (if projectName = "" then "meshery" else projectName) ∧
      ∀ (W : Type) (c : Client W) (w : W),
        Pull c ctx composeFilePath projectName w = c.ComposeService.Pull ctx p o w) :=
  ⟨⟨_, _, rfl, fun _ _ _ => rfl⟩, ⟨_, _, rfl, fun _ _ _ => rfl⟩,
    ⟨_, _, rfl, fun _ _ _ => rfl⟩, ⟨_, _, rfl, fun _ _ _ => rfl⟩⟩

/-- C8: each of Up, Rm, Stop and Pull is, on every client and state, exactly
one call of the compose service, and a client that records its requests
receives that one request: its project has the directory of composeFilePath as
WorkingDir, the list of composeFilePath alone as ComposeFiles, the defaulted
name, and every other field empty. -/
theorem one_call_with_project (ctx : Context) (projectName composeFilePath : String)
    (flag : Bool) (reply : Option GoError) (cs : List Container) (log : List Call) :
    let p : Project :=
      Project.mk (if projectName = "" then "meshery" else projectName)
        (filepathDir composeFilePath) [] [] [] [] [] [composeFilePath] []
    (∃ o, (∀ (W : Type) (c : Client W) (w : W),
        Up c ctx projectName composeFilePath flag w = c.ComposeService.Up ctx p o w) ∧
      (Up (recording reply cs) ctx projectName composeFilePath flag log).2
        = log ++ [Call.up ctx p o]) ∧
    (∃ o, (∀ (W : Type) (c : Client W) (w : W),
        Rm c ctx projectName composeFilePath flag w = c.ComposeService.Remove ctx p o w) ∧
      (Rm (recording reply cs) ctx projectName composeFilePath flag log).2
        = log ++ [Call.remove ctx p o]) ∧
    (∃ o, (∀ (W : Type) (c : Client W) (w : W),
        Stop c ctx projectName composeFilePath flag w = c.ComposeService.Stop ctx p o w) ∧
      (Stop (recording reply cs) ctx projectName composeFilePath flag log).2
        = log ++ [Call.stop ctx p o]) ∧
    (∃ o, (∀ (W : Type) (c : Client W) (w : W),
        Pull c ctx composeFilePath projectName w = c.ComposeService.Pull ctx p o w) ∧
      (Pull (recording reply cs) ctx composeFilePath projectName log).2
        = log ++ [Call.pull ctx p o]) := by
  intro p
  exact ⟨⟨_, fun _ _ _ => rfl, rfl⟩, ⟨_, fun _ _ _ => rfl, rfl⟩,
    ⟨_, fun _ _ _ => rfl, rfl⟩, ⟨_, fun _ _ _ => rfl, rfl⟩⟩

/-- C5: Rm hands the compose service remove options whose Force is the force
argument (so Force is set exactly when force is), on every client, and a
recording client receives exactly that Remove request. -/
theorem Rm_passes_force (ctx : Context) (projectName composeFilePath : String)
    (force : Bool) (reply : Option GoError) (cs : List Container) (log : List Call) :
    ∃ p o, o.Force = force ∧ (o.Force = true ↔ force = true) ∧
      (∀ (W : Type) (c : Client W) (w : W),
        Rm c ctx projectName composeFilePath force w = c.ComposeService.Remove ctx p o w) ∧
      (Rm (recording reply cs) ctx projectName composeFilePath force log).2
        = log ++ [Call.remove ctx p o] :=
  ⟨_, RemoveOptions.mk false force false [], rfl, Iff.rfl, fun _ _ _ => rfl, rfl⟩

/-- C9: Stop does not look at its force argument: with force set and with force
not set it gives the same result and state on every client, and a recording
client receives in both cases the same Stop request, with the same project and
empty stop options. -/
theorem Stop_ignores_force {W : Type} (c : Client W) (ctx : Context)
    (projectName composeFilePath : String) (w : W)
    (reply : Option GoError) (cs : List Container) (log : List Call) :
    Stop c ctx projectName composeFilePath true w
      = Stop c ctx projectName composeFilePath false w ∧
    ∃ p, ∀ force : Bool,
      Stop c ctx projectName composeFilePath force w
        = c.ComposeService.Stop ctx p (StopOptions.mk none []) w ∧
      (Stop (recording reply cs) ctx projectName composeFilePath force log).2
        = log ++ [Call.stop ctx p (StopOptions.mk none [])] :=
  ⟨rfl, _, fun _ => ⟨rfl, rfl⟩⟩

/-- C3 (what the code does): the start options Up hands over carry a log
consumer, writing to the write end of a fresh pipe, exactly when detach is
true, and a nil Attach when detach is false. -/
theorem Up_attaches_when_detached (ctx : Context) (projectName composeFilePath : String)
    (detach : Bool) (reply : Option GoError) (cs : List Container) (log : List Call) :
    ∃ p o,
      (Up (recording reply cs) ctx projectName composeFilePath detach log).2
        = log ++ [Call.up ctx p o] ∧
      o.Start.Attach
        = (if detach then some (LogConsumer.mk ctx Writer.pipeWriter false false) else none) ∧
      (o.Start.Attach.isSome = detach) ∧
      (∀ (W : Type) (c : Client W) (w : W),
        Up c ctx projectName composeFilePath detach w = c.ComposeService.Up ctx p o w) := by
  refine ⟨_, _, rfl, rfl, ?_, fun _ _ _ => rfl⟩
  cases detach <;> rfl

/-! ## The container views -/

/-- C4: for every list of containers, viewFromContainerList returns as many
views as there are containers, and the view at the place of each container has
its ID, Image, Command and Status, and as Ports PortsToStrings of its ports and
its FQDN, which is empty when Config is nil and Config.FQDN otherwise. -/
theorem viewFromContainerList_views (PortsToStrings : List Port → String → List String)
    (containerList : List Container) :
    (viewFromContainerList PortsToStrings containerList).length = containerList.length ∧
    ∀ (i : Nat) (c : Container), containerList[i]? = some c →
      ∃ v, (viewFromContainerList PortsToStrings containerList)[i]? = some v ∧
        v.ID = c.ID ∧ v.Image = c.Image ∧ v.Command = c.Command ∧ v.Status = c.Status ∧
        v.Ports = PortsToStrings c.Ports
          (match c.Config with
            | none => ""
            | some config => config.FQDN) := by
  rw [viewFromContainerList_eq_map]
  refine ⟨by simp, fun i c h => ?_⟩
  refine ⟨_, by rw [List.getElem?_map, h]; rfl, rfl, rfl, rfl, rfl, ?_⟩
  show PortsToStrings c.Ports (fqdn c) = _
  unfold fqdn
  cases c.Config <;> rfl

/-- C4 on the two sample containers, at the first one. -/
theorem viewFromContainerList_views_witness :
    sampleContainers[0]?
      = some (Container.mk "c1" "Up" "nginx" "run" (some (RuntimeConfig.mk [] "web.local"))
          [Port.mk 8080 80 "tcp" ""] "") ∧
    (viewFromContainerList samplePortsToStrings sampleContainers).length = 2 ∧
    ∃ v, (viewFromContainerList samplePortsToStrings sampleContainers)[0]? = some v ∧
      v.ID = "c1" ∧ v.Image = "nginx" ∧ v.Command = "run" ∧ v.Status = "Up" ∧
      v.Ports = ["web.local/tcp"] :=
  ⟨rfl, (viewFromContainerList_views samplePortsToStrings sampleContainers).1,
    (viewFromContainerList_views samplePortsToStrings sampleContainers).2 0
      (Container.mk "c1" "Up" "nginx" "run" (some (RuntimeConfig.mk [] "web.local"))
        [Port.mk 8080 80 "tcp" ""] "") rfl⟩

/-! ## Listing in quiet mode -/

/-- C10: in quiet mode, whatever all and formatOpt are, when the listing gives
the containers, the error and the next state: with an error e, Ps writes
nothing and returns the wrapping of e whose message is "fetch containers: "
followed by the message of e and whose cause is e; with no error, Ps appends to
standard output the ID of each listed container followed by a newline, in list
order, and returns nil. -/
theorem Ps_quiet {W : Type} (PortsToStrings : List Port → String → List String)
    (Print : List containerView → String → String → List String → Option GoError × String)
    (c : Client W) (ctx : Context) (all : Bool) (formatOpt : String) (w : W) (stdout : String)
    (containerList : List Container) (err : Option GoError) (w1 : W)
    (h : c.ContainerService.List ctx all w = ((containerList, err), w1)) :
    (∀ e, err = some e →
      ∃ r, Ps PortsToStrings Print c ctx all true formatOpt w stdout = (some r, w1, stdout) ∧
        r.Error = "fetch containers: " ++ e.Error ∧
        r = GoError.withStack (GoError.withMessage e "fetch containers") ∧
        r.causeStep.bind GoError.causeStep = some e ∧
        r.Cause = e.Cause) ∧
    (err = none →
      Ps PortsToStrings Print c ctx all true formatOpt w stdout
        = (none, w1, stdout ++ String.join (containerList.map (fun ct => ct.ID ++ "\n")))) := by
  constructor
  · intro e he
    subst he
    refine ⟨_, ?_, ?_, rfl, rfl, rfl⟩
    · simp [Ps, h, Wrap]
    · simp [GoError.Error, String.append_assoc]
  · intro he
    subst he
    simp [Ps, h, foldl_println]

/-- C10 on a client that lists the two sample containers without error, and on
a client whose listing fails. -/
theorem Ps_quiet_witness :
    ((recording none sampleContainers).ContainerService.List ⟨0⟩ false []
        = ((sampleContainers, none), [Call.list ⟨0⟩ false]) ∧
      Ps samplePortsToStrings samplePrint (recording none sampleContainers)
          ⟨0⟩ false true "json" [] ""
        = (none, [Call.list ⟨0⟩ false], "c1\nc2\n")) ∧
    ((recording (some (GoError.base "timeout")) sampleContainers).ContainerService.List
          ⟨0⟩ true []
        = ((sampleContainers, some (GoError.base "timeout")), [Call.list ⟨0⟩ true]) ∧
      ∃ r, Ps samplePortsToStrings samplePrint
          (recording (some (GoError.base "timeout")) sampleContainers) ⟨0⟩ true true "" [] ""
        = (some r, [Call.list ⟨0⟩ true], "") ∧
        r.Error = "fetch containers: timeout") :=
  ⟨⟨rfl, (Ps_quiet samplePortsToStrings samplePrint
      (recording none sampleContainers) ⟨0⟩ false "json" [] "" sampleContainers none
      [Call.list ⟨0⟩ false] rfl).2 rfl⟩,
    ⟨rfl, by
      obtain ⟨r, h1, h2, -⟩ := (Ps_quiet samplePortsToStrings samplePrint
        (recording (some (GoError.base "timeout")) sampleContainers) ⟨0⟩ true "" [] ""
        sampleContainers (some (GoError.base "timeout")) [Call.list ⟨0⟩ true] rfl).1
        (GoError.base "timeout") rfl
      exact ⟨r, h1, h2⟩⟩⟩

/-! ## Errors -/

/-- C2 (as the code has it): only Ps wraps.  Whenever the listing returns an
error e, Ps returns (in either mode) the wrapping of e with the message "fetch
containers", a wrapped value that is not e.  Up, Rm, Stop and Pull are the call
of the compose service itself, and GetLogs is the call of the container service
itself unless the console size cannot be read: each returns the error of that
call as it is. -/
theorem only_Ps_wraps {W : Type} (PortsToStrings : List Port → String → List String)
    (Print : List containerView → String → String → List String → Option GoError × String)
    (c : Client W) (ctx : Context) (w : W) :
    (∀ (all quiet : Bool) (formatOpt stdout : String) (containerList : List Container)
        (e : GoError) (w1 : W),
      c.ContainerService.List ctx all w = ((containerList, some e), w1) →
      ∃ r, (Ps PortsToStrings Print c ctx all quiet formatOpt w stdout).1 = some r ∧
        r = GoError.withStack (GoError.withMessage e "fetch containers") ∧
        r.isWrapped = true ∧ r ≠ e ∧ r.Error = "fetch containers: " ++ e.Error) ∧
    (∀ (projectName composeFilePath : String) (flag : Bool),
      (∃ p o, Up c ctx projectName composeFilePath flag w = c.ComposeService.Up ctx p o w) ∧
      (∃ p o, Rm c ctx projectName composeFilePath flag w
        = c.ComposeService.Remove ctx p o w) ∧
      (∃ p o, Stop c ctx projectName composeFilePath flag w
        = c.ComposeService.Stop ctx p o w) ∧
      (∃ p o, Pull c ctx composeFilePath projectName w = c.ComposeService.Pull ctx p o w)) ∧
    (∀ (consoleFromFile : Except GoError Console) (composeFilePath tail : String)
        (follow : Bool),
      (∃ cff sizeErr, consoleFromFile = Except.ok cff ∧ cff.SizeErr = some sizeErr ∧
        GetLogs consoleFromFile c ctx composeFilePath tail follow w = (some sizeErr, w)) ∨
      (∃ req, GetLogs consoleFromFile c ctx composeFilePath tail follow w
        = c.ContainerService.Logs ctx composeFilePath req w)) := by
  refine ⟨?_, ?_, ?_⟩
  · intro all quiet formatOpt stdout containerList e w1 h
    refine ⟨_, ?_, rfl, rfl, ?_, ?_⟩
    · simp [Ps, h, Wrap]
    · intro heq
      have hs := congrArg sizeOf heq
      simp at hs
      omega
    · simp [GoError.Error, String.append_assoc]
  · intro projectName composeFilePath flag
    exact ⟨⟨_, _, rfl⟩, ⟨_, _, rfl⟩, ⟨_, _, rfl⟩, ⟨_, _, rfl⟩⟩
  · intro consoleFromFile composeFilePath tail follow
    cases consoleFromFile with
    | error x => exact Or.inr ⟨_, rfl⟩
    | ok cff =>
      cases hsz : cff.SizeErr with
      | some sizeErr =>
        refine Or.inl ⟨cff, sizeErr, rfl, hsz, ?_⟩
        simp [GetLogs, hsz]
      | none =>
        refine Or.inr
          ⟨LogsRequest.mk follow tail cff.Width (some (Writer.console cff.Width)), ?_⟩
        simp [GetLogs, hsz]

/-- C2 (as the code has it) on a client whose listing fails. -/
theorem only_Ps_wraps_witness :
    (recording (some (GoError.base "daemon unreachable")) []).ContainerService.List ⟨0⟩ true []
      = (([], some (GoError.base "daemon unreachable")), [Call.list ⟨0⟩ true]) ∧
    (Ps samplePortsToStrings samplePrint
        (recording (some (GoError.base "daemon unreachable")) []) ⟨0⟩ true false "" [] "").1
      = some (GoError.withStack
          (GoError.withMessage (GoError.base "daemon unreachable") "fetch containers")) :=
  ⟨rfl, by
    obtain ⟨r, h1, h2, -⟩ := (only_Ps_wraps samplePortsToStrings samplePrint
      (recording (some (GoError.base "daemon unreachable")) []) ⟨0⟩ []).1 true false "" "" []
      (GoError.base "daemon unreachable") [Call.list ⟨0⟩ true] rfl
    rw [h1, h2]⟩

/-- C2 fails for Up: when the compose service answers with an error that is
not a wrapping, Up returns that very error. -/
theorem Up_returns_raw_error :
    (Up (recording (some (GoError.base "no such image")) []) ⟨0⟩ "" "docker-compose.yaml"
        false []).1 = some (GoError.base "no such image") ∧
    (GoError.base "no such image").isWrapped = false := by
  decide

/-! ## Stopping twice -/

/-- C6: on the container engine, for every project and every state, Stop
reports success and stops the running containers of the project (named
"meshery" when projectName is empty), leaving every other container as it is;
a second Stop with the same arguments reports success again and changes no
state, so that two calls in succession give what one call gives. -/
theorem Stop_twice_is_once (ctx : Context) (projectName composeFilePath : String)
    (force : Bool) (w : List ContainerHandle) :
    Stop engine ctx projectName composeFilePath force w
      = (none, w.map (fun h =>
          if h.project = (if projectName = "" then "meshery" else projectName)
          then stopContainer h else h)) ∧
    Stop engine ctx projectName composeFilePath force
        (Stop engine ctx projectName composeFilePath force w).2
      = (none, (Stop engine ctx projectName composeFilePath force w).2) ∧
    Stop engine ctx projectName composeFilePath force
        (Stop engine ctx projectName composeFilePath force w).2
      = Stop engine ctx projectName composeFilePath force w := by
  have hstep : ∀ v : List ContainerHandle,
      Stop engine ctx projectName composeFilePath force v
        = (none, v.map (fun h =>
            if h.project = (if projectName = "" then "meshery" else projectName)
            then stopContainer h else h)) := fun _ => rfl
  have hmap : (w.map (fun h =>
        if h.project = (if projectName = "" then "meshery" else projectName)
        then stopContainer h else h)).map (fun h =>
        if h.project = (if projectName = "" then "meshery" else projectName)
        then stopContainer h else h)
      = w.map (fun h =>
        if h.project = (if projectName = "" then "meshery" else projectName)
        then stopContainer h else h) := by
    rw [List.map_map]
    apply List.map_congr_left
    intro h _
    by_cases hp : h.project = (if projectName = "" then "meshery" else projectName)
    · simp only [Function.comp, hp, if_true]
      rw [if_pos (by rw [stopContainer_project]; exact hp), stopContainer_stopContainer]
    · simp only [Function.comp, hp, if_false]
  refine ⟨hstep w, ?_, ?_⟩
  · rw [hstep w, hstep, hmap]
  · rw [hstep w, hstep, hmap]

/-- C6 on the three sample containers: the first Stop stops the running
container of project `meshery` only, and the second Stop changes nothing. -/
theorem Stop_twice_is_once_witness :
    Stop engine ⟨0⟩ "" "docker-compose.yaml" false sampleHandles
      = (none, [ContainerHandle.mk "c1" "meshery" "server" Lifecycle.Stopped,
          ContainerHandle.mk "c2" "meshery" "adapter" Lifecycle.Stopped,
          ContainerHandle.mk "c3" "web" "nginx" Lifecycle.Running]) ∧
    Stop engine ⟨0⟩ "" "docker-compose.yaml" false
        (Stop engine ⟨0⟩ "" "docker-compose.yaml" false sampleHandles).2
      = (none, (Stop engine ⟨0⟩ "" "docker-compose.yaml" false sampleHandles).2) ∧
    Stop engine ⟨0⟩ "" "docker-compose.yaml" false
        (Stop engine ⟨0⟩ "" "docker-compose.yaml" false sampleHandles).2
      = Stop engine ⟨0⟩ "" "docker-compose.yaml" false sampleHandles :=
  Stop_twice_is_once ⟨0⟩ "" "docker-compose.yaml" false sampleHandles

/-! ## The version query -/

/-- C7: for every outcome of the version query, when no result is returned
(nil bytes) GetVersion returns the empty string together with a non-nil error,
the one of the query; and when a result is returned, GetVersion returns exactly
these bytes as a string together with the error of the query. -/
theorem GetVersion_absent_result_is_error {W : Type} (query : Context → VersionQuery)
    (ctx : Context) (c : Client W) :
    ((query ctx).result.1 = none →
      ∃ e, (query ctx).result.2 = some e ∧
        GetVersion (fun x => (query x).result) ctx c = ("", some e)) ∧
    (∀ bytes, (query ctx).result.1 = some bytes →
      GetVersion (fun x => (query x).result) ctx c
        = (String.mk bytes, (query ctx).result.2)) := by
  cases hq : query ctx with
  | failed err =>
    refine ⟨fun _ => ⟨err, rfl, ?_⟩, fun bytes hb => ?_⟩
    · simp [GetVersion, hq, VersionQuery.result]
    · simp [VersionQuery.result] at hb
  | output out err =>
    refine ⟨fun hn => ?_, fun bytes hb => ?_⟩
    · simp [VersionQuery.result] at hn
    · simp only [VersionQuery.result, Option.some.injEq] at hb
      subst hb
      simp [GetVersion, hq, VersionQuery.result]

/-- C7 on a query without a result, and on a query that gives a version and
the error of a failed command. -/
theorem GetVersion_absent_result_is_error_witness :
    (∃ e, (VersionQuery.failed (GoError.base "executable file not found")).result.2 = some e ∧
      GetVersion (fun _ => (VersionQuery.failed (GoError.base "executable file not found")).result)
          ⟨0⟩ (recording none [])
        = ("", some e)) ∧
    GetVersion
        (fun _ => (VersionQuery.output "20.10.7".data (some (GoError.base "exit status 1"))).result)
        ⟨0⟩ (recording none [])
      = ("20.10.7", some (GoError.base "exit status 1")) :=
  ⟨(GetVersion_absent_result_is_error
      (fun _ => VersionQuery.failed (GoError.base "executable file not found")) ⟨0⟩
      (recording none [])).1 rfl,
    (GetVersion_absent_result_is_error
      (fun _ => VersionQuery.output "20.10.7".data (some (GoError.base "exit status 1"))) ⟨0⟩
      (recording none [])).2 _ rfl⟩

end Helpers
